import Mathlib

/-!
# A shallow embedding of the neoBot forum-scraper extraction pipeline

This file embeds the content-extraction logic of `src/bot/ForumScraper.js`
(`scrapeCategories`, `scrapeRecentPosts`, `getPostContent`) as executable Lean
definitions and proves the specification claims about them.

A parsed document handle is modelled by the interface the source code actually
consumes from cheerio/puppeteer: the rendered body text, the page title, and a
query function mapping a CSS selector string to the list of text contents of
the matching elements, in document order.  JavaScript strings are modelled as
Lean `String`s (all fixtures are ASCII, where `.length`, `trim()`, `toLowerCase()`,
`split` and `includes` agree between the two languages; `trim`, `toLowerCase`
and `split` are given explicit character-list implementations so that they
evaluate inside the kernel), and the regular expressions appearing in the
source are embedded as explicit character-list scanners with the same matching
semantics.
-/

namespace NeoBot

/-! ## String helpers (JS `includes`, `match`, `replace` and `split`) -/

/-- Does the list `l` start with the needle `n`? (case-sensitive). -/
def listStartsWith : List Char → List Char → Bool
  | _, [] => true
  | [], _ :: _ => false
  | a :: as, b :: bs => a == b && listStartsWith as bs

/-- Does the list `l` contain `n` as a contiguous sublist? -/
def listHasSub (n : List Char) : List Char → Bool
  | [] => n.isEmpty
  | c :: t => listStartsWith (c :: t) n || listHasSub n t

/-- JS `hay.includes(needle)`. -/
def containsStr (hay needle : String) : Bool :=
  listHasSub needle.data hay.data

/-- Case-insensitive `listStartsWith` (for the `/i` regex flag). -/
def listStartsWithCI : List Char → List Char → Bool
  | _, [] => true
  | [], _ :: _ => false
  | a :: as, b :: bs => a.toLower == b.toLower && listStartsWithCI as bs

/-- Number of non-overlapping occurrences of `n`, scanning left to right:
JS `(s.match(/n/g) || []).length` for a literal pattern `n`.  The `fuel`
argument only bounds the recursion depth (each step shortens the list, so
`fuel = l.length` never runs out); structural recursion on it keeps the
definition kernel-evaluable. -/
def countSubAux (n : List Char) : Nat → List Char → Nat
  | _, [] => 0
  | 0, _ => 0
  | fuel + 1, c :: t =>
    if n ≠ [] && listStartsWith (c :: t) n then
      countSubAux n fuel (List.drop (n.length - 1) t) + 1
    else
      countSubAux n fuel t

def countSub (n : List Char) (l : List Char) : Nat := countSubAux n l.length l

/-- Length of the match of the case-insensitive literal `n` at the head of `l`,
if any. -/
def litMatchCI (n : List Char) (l : List Char) : Option Nat :=
  if n ≠ [] && listStartsWithCI l n then some n.length else none

/-- Scan for the earliest occurrence of `endN` (case-insensitively), refusing
to cross a newline (JS `.` does not match `\n`); returns the number of
characters consumed up to and including the occurrence. -/
def endScanLen (endN : List Char) : List Char → Option Nat
  | [] => if endN.isEmpty then some 0 else none
  | c :: t =>
    if listStartsWithCI (c :: t) endN then some endN.length
    else if c == '\n' then none
    else (endScanLen endN t).map (· + 1)

/-- Length of the match of the lazy pattern `startN.*?endN` (flags `gi`) at the
head of `l`, if any. -/
def lazyMatchCI (startN endN : List Char) (l : List Char) : Option Nat :=
  if startN ≠ [] && listStartsWithCI l startN then
    (endScanLen endN (List.drop startN.length l)).map (· + startN.length)
  else none

/-- Remove every match of the matcher `ml`, scanning left to right and
restarting after the end of each match: the semantics of a global
JS `String.replace(re, '')`.  `fuel = l.length` again only bounds the
recursion depth. -/
def removeMatchesAux (ml : List Char → Option Nat) : Nat → List Char → List Char
  | _, [] => []
  | 0, l => l
  | fuel + 1, c :: t =>
    match ml (c :: t) with
    | some (m + 1) => removeMatchesAux ml fuel (List.drop m t)
    | some 0 => c :: removeMatchesAux ml fuel t
    | none => c :: removeMatchesAux ml fuel t

def removeMatches (ml : List Char → Option Nat) (l : List Char) : List Char :=
  removeMatchesAux ml l.length l

/-- JS `s.replace(/n/gi, '')` for a literal pattern `n`. -/
def removeAllCI (n : String) (s : String) : String :=
  ⟨removeMatches (litMatchCI n.data) s.data⟩

/-- JS `s.replace(/startN.*?endN/gi, '')`. -/
def removeLazyCI (startN endN : String) (s : String) : String :=
  ⟨removeMatches (lazyMatchCI startN.data endN.data) s.data⟩

def isDigitCh (c : Char) : Bool := '0' ≤ c && c ≤ '9'

/-- ASCII `\s`. -/
def isSpaceCh (c : Char) : Bool :=
  c == ' ' || c == '\t' || c == '\n' || c == '\r' || c == '\x0b' || c == '\x0c'

/-- JS `s.toLowerCase()` (ASCII case folding, which coincides with JS on every
string appearing in the embedded code and fixtures); implemented over the
character list so that it evaluates inside the kernel, which the built-in
`String.toLower` does not. -/
def jsToLower (s : String) : String := ⟨s.data.map Char.toLower⟩

/-- JS `s.split(sep)` for a non-empty separator, over character lists
(`fuel = l.length` only bounds the recursion depth). -/
def jsSplitAux (sep : List Char) : Nat → List Char → List Char → List (List Char)
  | _, acc, [] => [acc.reverse]
  | 0, acc, _ => [acc.reverse]
  | fuel + 1, acc, c :: t =>
    if listStartsWith (c :: t) sep then
      acc.reverse :: jsSplitAux sep fuel [] (List.drop (sep.length - 1) t)
    else jsSplitAux sep fuel (c :: acc) t

/-- JS `s.split(sep)` (kernel-evaluable replacement for `String.splitOn`). -/
def jsSplit (sep : String) (s : String) : List String :=
  (jsSplitAux sep.data s.data.length [] s.data).map fun l => ⟨l⟩

/-- JS `s.trim()` (ASCII whitespace; kernel-evaluable replacement for
`String.trim`). -/
def jsTrim (s : String) : String :=
  ⟨((s.data.dropWhile isSpaceCh).reverse.dropWhile isSpaceCh).reverse⟩

/-- JS `hay.toLowerCase().includes(needle)` for a lowercase literal needle. -/
def lcontains (hay needle : String) : Bool :=
  containsStr (jsToLower hay) needle

/-- Consume the literal needle (first argument) from the head of the haystack. -/
def dropLit : List Char → List Char → Option (List Char)
  | [], l => some l
  | _ :: _, [] => none
  | a :: as, b :: bs => if a == b then dropLit as bs else none

/-- JS `s.match(/^August \d+, \d+/)` converted to a Bool. -/
def matchAugustDate (s : String) : Bool :=
  match dropLit "August ".data s.data with
  | none => false
  | some r =>
    let ds := r.takeWhile isDigitCh
    let r1 := r.dropWhile isDigitCh
    ds ≠ [] &&
      match r1 with
      | ',' :: ' ' :: r2 => (r2.takeWhile isDigitCh) ≠ []
      | _ => false

/-- JS `s.match(/^\d+\s+score$/)` converted to a Bool. -/
def matchScoreLine (s : String) : Bool :=
  let l := s.data
  let ds := l.takeWhile isDigitCh
  let r1 := l.dropWhile isDigitCh
  let ws := r1.takeWhile isSpaceCh
  let r2 := r1.dropWhile isSpaceCh
  ds ≠ [] && ws ≠ [] && r2 == "score".data

def isSentEnd (c : Char) : Bool := c == '.' || c == '!' || c == '?'

/-- JS `s.split(/[.!?]+/)`: split on maximal runs of sentence terminators
(`fuel = l.length` only bounds the recursion depth). -/
def splitSentencesAux : Nat → List Char → List Char → List (List Char)
  | _, acc, [] => [acc.reverse]
  | 0, acc, _ => [acc.reverse]
  | fuel + 1, acc, c :: t =>
    if isSentEnd c then
      acc.reverse :: splitSentencesAux fuel [] (t.dropWhile isSentEnd)
    else splitSentencesAux fuel (c :: acc) t

def splitSentences (s : String) : List String :=
  (splitSentencesAux s.data.length [] s.data).map fun l => ⟨l⟩

/-- Stable insertion into a list sorted by descending string length. -/
def insertLenDesc (a : String) : List String → List String
  | [] => [a]
  | b :: t => if b.length ≤ a.length then a :: b :: t else b :: insertLenDesc a t

/-- JS `arr.sort((a, b) => b.length - a.length)`: a stable sort by descending
string length (ECMAScript `Array.prototype.sort` is required to be stable). -/
def sortLenDesc : List String → List String
  | [] => []
  | a :: t => insertLenDesc a (sortLenDesc t)

/-! ## Data model

`PostSummary` is the record pushed by `scrapeRecentPosts` (called `postData` in
the source; the global-search path pushes no `author` property, modelled as the
empty string).  `PostDetail` is the record returned by `getPostContent`. -/

structure PostSummary where
  title : String
  link : String
  content : String
  author : String
  deriving DecidableEq

structure PostDetail where
  title : String
  content : String
  author : String
  timestamp : String
  comments : List String
  url : String
  deriving DecidableEq

/-- Document handle for `scrapeCategories`: the only structural access the
source performs is `$(selector).each` reading `$(element).text()`, modelled by
`query` returning the (untrimmed) text of each matching element in document
order. -/
structure CatDoc where
  query : String → List String

/-- An anchor inside a listing card: its `href` attribute and the texts of its
`h3` descendants (`anchor.find('h3')`, whose `.text()` concatenates them). -/
structure CardAnchor where
  href : Option String
  h3texts : List String

/-- A `div.rounded-lg.group` card of the listing page: its anchors in document
order and a `find` query for descendant text lookup. -/
structure Card where
  anchors : List CardAnchor
  find : String → List String

/-- An anchor seen by the global `$('a')` scan: `href`, `h3` descendant texts,
its own text, and the text lookup on its parent element. -/
structure GAnchor where
  href : Option String
  h3texts : List String
  text : String
  parentFind : String → List String

/-- Document handle for `scrapeRecentPosts`. -/
structure ListDoc where
  cards : List Card
  anchors : List GAnchor

/-- Document handle for `getPostContent`: the rendered `document.body.innerText`
(`bodyText`), the rendered `document.title` (`title`), and cheerio selector
queries over the rendered `bodyHTML` (`query`, returning the untrimmed text of
each matching element in document order). -/
structure PostDoc where
  bodyText : String
  title : String
  query : String → List String

/-! ## scrapeCategories -/

def defaultCategories : List String :=
  ["General Discussion", "Tech Talk", "Gaming",
   "Random Thoughts", "News & Updates", "Help & Support"]

def categorySelectors : List String :=
  [".forum-category-list .forum-category", ".category-list .category",
   ".category-card", ".category-title", ".forum-category-list a"]

/-- One `$(selector).each` iteration body of `scrapeCategories`. -/
def addCategory (categories : List String) (t : String) : List String :=
  let categoryName := jsTrim t
  if categoryName != "" && !categories.contains categoryName then
    categories ++ [categoryName]
  else categories

/-- The selector loop of `scrapeCategories`, with its
`if (categories.length > 0) break`. -/
def categoriesFromSels (q : String → List String) (categories : List String) :
    List String → List String
  | [] => categories
  | sel :: rest =>
    let categories2 := (q sel).foldl addCategory categories
    if categories2.length > 0 then categories2
    else categoriesFromSels q categories2 rest

def scrapeCategories (d : CatDoc) : List String :=
  let categories := categoriesFromSels d.query [] categorySelectors
  if categories.length == 0 then defaultCategories else categories

/-- `scrapeCategories` including document acquisition: if no document can be
obtained (`page.content()` throws), the catch handler returns the default
categories. -/
def scrapeCategoriesResult : Option CatDoc → List String
  | none => defaultCategories
  | some d => scrapeCategories d

/-! ## scrapeRecentPosts -/

/-- `href && href.includes('/forum/') && href.includes('/post/')`. -/
def anchorHrefOk : Option String → Bool
  | some h => containsStr h "/forum/" && containsStr h "/post/"
  | none => false

def previewSelectors : List String :=
  [".post-preview, .post-excerpt", ".content-preview", "p", ".description", ".summary"]

/-- The content-preview selector loop inside the card strategy. -/
def previewFromSels (fnd : String → List String) : List String → String
  | [] => ""
  | sel :: rest =>
    let preview := jsTrim ((fnd sel).headD "")
    if preview != "" && decide (preview.length > 20) && decide (preview.length < 300) then
      preview
    else previewFromSels fnd rest

/-- The single entry of `authorSelectors` in the card strategy. -/
def cardAuthorSelector : String := ".author, .username, .poster, [class*=\"user\"]"

/-- One iteration of the `.rounded-lg.group` card loop: the post summary pushed
for this card, if any. -/
def cardPost (c : Card) : Option PostSummary :=
  match c.anchors.find? (fun a => anchorHrefOk a.href) with
  | none => none
  | some a =>
    let href := a.href.getD ""
    let title := if a.h3texts.length > 0 then jsTrim (String.join a.h3texts) else ""
    let contentPreview := previewFromSels c.find previewSelectors
    let author := jsTrim ((c.find cardAuthorSelector).headD "")
    if title != "" && href != "" then
      some { title := title, link := href, content := contentPreview, author := author }
    else none

/-- One iteration of the global `$('a')` fallback scan. -/
def globalPost (a : GAnchor) : Option PostSummary :=
  match a.href with
  | none => none
  | some href =>
    if containsStr href "/forum/" && containsStr href "/post/" then
      let title := if a.h3texts.length > 0 then jsTrim (String.join a.h3texts) else jsTrim a.text
      let contentText := jsTrim ((a.parentFind "p, .content, .preview").headD "")
      let contentPreview :=
        if contentText != "" && decide (contentText.length > 20) &&
            decide (contentText.length < 200) then contentText
        else ""
      if title != "" && href != "" then
        some { title := title, link := href, content := contentPreview, author := "" }
      else none
    else none

/-- `scrapeRecentPosts` before the final `limit` truncation: the card strategy,
falling back to the global anchor scan when it produced nothing (the structure
diagnostics logged when both fail add no posts). -/
def scrapeRecentPostsAll (d : ListDoc) : List PostSummary :=
  let recentPosts := d.cards.filterMap cardPost
  if recentPosts.length == 0 then d.anchors.filterMap globalPost else recentPosts

/-- `scrapeRecentPosts`, including
`if (recentPosts.length > limit) recentPosts.splice(limit)`. -/
def scrapeRecentPosts (d : ListDoc) (limit : Nat) : List PostSummary :=
  let recentPosts := scrapeRecentPostsAll d
  if recentPosts.length > limit then recentPosts.take limit else recentPosts

/-- `scrapeRecentPosts` including document acquisition: the catch handler
returns an empty array. -/
def scrapeRecentPostsResult : Option ListDoc → Nat → List PostSummary
  | none, _ => []
  | some d, limit => scrapeRecentPosts d limit

/-! ## getPostContent: title extraction -/

/-- The per-line acceptance test of the textual title strategy
(`getPostContent`, the loop over the first 20 rendered text lines). -/
def titleLineNoDenylist (line : String) : Bool :=
  !lcontains line "neoforum" &&
  !lcontains line "explore" &&
  !lcontains line "dashboard" &&
  !lcontains line "back to forum" &&
  !lcontains line "home" &&
  !lcontains line "/" &&
  !lcontains line "score" &&
  !lcontains line "music" &&
  !lcontains line "topic starter" &&
  !lcontains line "edited"

def titleLineOk (line : String) : Bool :=
  decide (line.length > 10) && decide (line.length < 100) &&
  titleLineNoDenylist line &&
  !matchAugustDate line &&
  decide ((jsSplit " " line).length > 2) && decide ((jsSplit " " line).length < 15)

/-- The textual title strategy: first acceptable line among the first 20. -/
def titleFromTextLines (textLines : List String) : String :=
  match (textLines.take 20).find? titleLineOk with
  | some line => jsTrim line
  | none => ""

def titleSelectors : List String :=
  [".post-title", ".topic-title", ".discussion-title", "article h1", "main h1",
   ".content h1", "h1:not(.site-title):not(.forum-title)", "h2", "h3"]

/-- The site/forum-title filter applied to each HTML title candidate. -/
def validHtmlTitle (titleText : String) : Bool :=
  titleText != "" &&
  jsToLower titleText != "neoforum" &&
  !lcontains titleText "forum" &&
  !lcontains titleText "community" &&
  !lcontains titleText "explore" &&
  !lcontains titleText "dashboard" &&
  decide (titleText.length > 5) && decide (titleText.length < 200)

/-- The HTML-selector title fallback chain. -/
def titleFromSels (q : String → List String) : List String → String
  | [] => ""
  | sel :: rest =>
    match q sel with
    | [] => titleFromSels q rest
    | t :: _ =>
      let titleText := jsTrim t
      if validHtmlTitle titleText then titleText else titleFromSels q rest

/-- The page-title fallback (`renderedContent.title || $('title').text().trim()`,
split on `' - '` to drop the trailing site name). -/
def titleFromPageTitle (d : PostDoc) : String :=
  let pageTitle := if d.title != "" then d.title else jsTrim (String.join (d.query "title"))
  if containsStr pageTitle " - " then
    let potentialTitle := jsTrim ((jsSplit " - " pageTitle).headD "")
    if jsToLower potentialTitle != "neoforum" && !lcontains potentialTitle "forum" &&
        decide (potentialTitle.length > 5) then
      potentialTitle
    else ""
  else if pageTitle != "" && jsToLower pageTitle != "neoforum" &&
      !lcontains pageTitle "forum" &&
      decide (pageTitle.length > 5) && decide (pageTitle.length < 200) then
    pageTitle
  else ""

/-- The full title chain of `getPostContent`. -/
def extractTitle (d : PostDoc) : String :=
  let textLines := (jsSplit "\n" d.bodyText).map jsTrim
  let t1 := titleFromTextLines textLines
  if t1 != "" then t1
  else
    let t2 := titleFromSels d.query titleSelectors
    if t2 != "" then t2 else titleFromPageTitle d

/-! ## getPostContent: body extraction cascade -/

/-- The navigation/UI line filter applied to the rendered text
(the first `.filter` over `bodyText.split('\n')`). -/
def bodyLineKeep (line : String) : Bool :=
  decide (line.length > 20) &&
  !lcontains line "neoforum" &&
  !lcontains line "community based around" &&
  !lcontains line "navigate" &&
  !lcontains line "login" &&
  !lcontains line "register" &&
  !lcontains line "search" &&
  !lcontains line "home" &&
  !lcontains line "explore" &&
  !lcontains line "dashboard" &&
  !lcontains line "back to forum" &&
  !lcontains line "©" &&
  !lcontains line "privacy" &&
  !lcontains line "terms" &&
  !lcontains line "forum description" &&
  !lcontains line "score" &&
  !lcontains line "topic starter" &&
  !lcontains line "edited" &&
  !lcontains line "music" &&
  !containsStr line "$" &&
  !containsStr line "__className_" &&
  !containsStr line "$undefined" &&
  !containsStr line "dangerouslySetInnerHTML" &&
  !matchScoreLine line &&
  !matchAugustDate line &&
  !containsStr line "/"

/-- The "looks like post content" line filter (`postLines`).  In the source the
final `!line.toLowerCase().includes('weekly')` is followed by `||`-chained
allowances, and JS `&&` binds tighter than `||`, so a line containing one of
the allowance words passes regardless of the `&&`-chain. -/
def postLineOk (line : String) : Bool :=
  (decide (line.length > 30) && decide ((jsSplit " " line).length > 5) &&
   !lcontains line "reply" &&
   !lcontains line "quote" &&
   !lcontains line "edit" &&
   !lcontains line "share" &&
   !lcontains line "like" &&
   !lcontains line "report" &&
   !lcontains line "delete" &&
   !lcontains line "bookmark" &&
   !lcontains line "weekly") ||
  lcontains line "discussion" ||
  lcontains line "looking forward" ||
  lcontains line "everyone" ||
  lcontains line "thoughts" ||
  lcontains line "opinion" ||
  lcontains line "what do you think"

/-- The rendered-text body strategy: the first 5 `postLines` joined with a
space, falling back to the 3 longest "meaningful" lines. -/
def stageABody (d : PostDoc) : String :=
  let lines := ((jsSplit "\n" d.bodyText).map jsTrim).filter bodyLineKeep
  if lines.length > 0 then
    let postLines := lines.filter postLineOk
    if postLines.length > 0 then
      jsTrim (String.intercalate " " (postLines.take 5))
    else
      let meaningfulLines :=
        (sortLenDesc (lines.filter fun line =>
          decide (line.length > 25) && decide ((jsSplit " " line).length > 4))).take 3
      if meaningfulLines.length > 0 then
        jsTrim (String.intercalate " " meaningfulLines)
      else ""
  else ""

def bodySelectors : List String :=
  [".post-content", ".message-content", ".post-body", ".topic-content",
   ".discussion-content", ".user-content", ".post .content", ".message .content",
   ".topic .content", "article.post", "article.message",
   "main .content:not(.forum-description):not(.category-description)",
   ".main-content:not(.forum-description):not(.category-description)"]

/-- The `isValidPostContent` check of the HTML body strategy.  The URL-density
condition `(textContent.match(/http/g) || []).length < textContent.split(' ').length * 0.1`
is modelled with exact rational arithmetic (`10 * count < words`). -/
def isValidPostContent (textContent : String) : Bool :=
  decide (textContent.length > 100) &&
  decide ((jsSplit " " textContent).length > 20) &&
  decide ((jsSplit "\n" textContent).length < 50) &&
  !lcontains textContent "neoforum" &&
  !lcontains textContent "community based around" &&
  !lcontains textContent "forum description" &&
  !lcontains textContent "category:" &&
  !lcontains textContent "navigate to" &&
  !lcontains textContent "welcome to" &&
  !lcontains textContent "©" &&
  !lcontains textContent "privacy policy" &&
  !lcontains textContent "terms of service" &&
  !containsStr textContent "$undefined" &&
  !containsStr textContent "__className_" &&
  !containsStr textContent "dangerouslySetInnerHTML" &&
  !containsStr textContent "$L" &&
  decide (10 * countSub "http".data textContent.data < (jsSplit " " textContent).length)

/-- The HTML body selector chain ("" when every selector misses or fails
validation; the caller then keeps its previous body). -/
def htmlBodyFromSels (q : String → List String) : List String → String
  | [] => ""
  | sel :: rest =>
    match q sel with
    | [] => htmlBodyFromSels q rest
    | t :: ts =>
      let textContent := jsTrim (String.join (t :: ts))
      if isValidPostContent textContent then textContent
      else htmlBodyFromSels q rest

def postContainerSelectors : List String :=
  [".post-container .content", ".message-container .content",
   ".topic-container .content", "[data-post-id] .content",
   "[class*=\"post-\"] .content"]

/-- The aggressive filter of the post-container strategy. -/
def containerFilter (textContent : String) : String :=
  jsTrim (removeLazyCI "forum description" "."
    (removeLazyCI "community based around" "friends"
      (removeAllCI "neoforum" textContent)))

/-- The post-container body strategy. -/
def containerBodyFromSels (q : String → List String) : List String → String
  | [] => ""
  | sel :: rest =>
    match q sel with
    | [] => containerBodyFromSels q rest
    | t :: ts =>
      let textContent := jsTrim (String.join (t :: ts))
      let filteredContent := containerFilter textContent
      if decide (filteredContent.length > 50) &&
          decide ((jsSplit " " filteredContent).length > 10) then
        filteredContent
      else containerBodyFromSels q rest

/-- The emergency-fallback replace chain; `/privacy policy.*?/gi` and
`/terms of service.*?/gi` end in an unconstrained lazy `.*?`, which matches the
empty string, so they remove exactly the literal phrase. -/
def emergencyFilter (allText : String) : String :=
  jsTrim (removeAllCI "terms of service"
    (removeAllCI "privacy policy"
      (removeLazyCI "navigate" "to"
        (removeLazyCI "category" ":"
          (removeLazyCI "welcome to" "forum"
            (removeLazyCI "forum description" "."
              (removeLazyCI "community based around" "friends"
                (removeAllCI "neoforum" allText))))))))

/-- The per-sentence filter of the emergency fallback. -/
def sentenceOk (s : String) : Bool :=
  decide (s.length > 30) && decide ((jsSplit " " s).length > 5) &&
  !lcontains s "forum" &&
  !lcontains s "community" &&
  !lcontains s "navigate"

/-- The emergency fallback: filter the whole `$('body').text()` and keep the
first 3 meaningful sentences. -/
def emergencyBody (d : PostDoc) : String :=
  let allText := String.join (d.query "body")
  let filteredText := emergencyFilter allText
  let sentences := (((splitSentences filteredText).map jsTrim).filter sentenceOk).take 3
  if sentences.length > 0 then String.intercalate ". " sentences ++ "." else ""

/-- The full body cascade of `getPostContent`, before the final suspicious
content gate: rendered-text strategy, HTML selectors (tried when the rendered
text produced nothing or fewer than 100 characters), post containers, then the
emergency fallback. -/
def bodyCascade (d : PostDoc) : String :=
  let bodyA := stageABody d
  let bodyB :=
    if bodyA = "" ∨ bodyA.length < 100 then
      let h := htmlBodyFromSels d.query bodySelectors
      if h != "" then h else bodyA
    else bodyA
  let bodyC :=
    if bodyB = "" then containerBodyFromSels d.query postContainerSelectors else bodyB
  if bodyC = "" then emergencyBody d else bodyC

def suspiciousPatterns : List String :=
  ["neoforum", "community based around", "furry best friends", "forum description",
   "welcome to", "$undefined", "__className_", "dangerouslySetInnerHTML", "$L",
   "precedence", "crossOrigin", "nonce"]

/-- The final whole-candidate denylist pass
(`suspiciousPatterns.some(pattern => body.toLowerCase().includes(pattern.toLowerCase()))`). -/
def hasSuspiciousContent (body : String) : Bool :=
  suspiciousPatterns.any fun pat => containsStr (jsToLower body) (jsToLower pat)

/-- The assembled body after the final suspicious-content gate
(`if (hasSuspiciousContent) body = ''`). -/
def finalBody (d : PostDoc) : String :=
  let body := bodyCascade d
  if body != "" && hasSuspiciousContent body then "" else body

/-! ## getPostContent: author, timestamp, comments, assembly -/

def extractAuthor (q : String → List String) : String :=
  let author := jsTrim ((q ".post-author, .username").headD "")
  if author = "" then
    jsTrim ((q "[class*=\"author\"], [class*=\"user\"], .user-info").headD "")
  else author

def extractTimestamp (q : String → List String) : String :=
  let timestamp := jsTrim ((q ".post-time, .timestamp").headD "")
  if timestamp = "" then jsTrim ((q "[class*=\"date\"], [data-time]").headD "")
  else timestamp

def commentSelectors : List String :=
  [".comment, .reply", ".comment-content, .reply-content", ".post-comment",
   ".message-reply", "[class*=\"comment\"]", ".comment-body, .reply-body"]

/-- One `$(selector).each` iteration of the comment collection pass. -/
def addComment (comments : List String) (t : String) : List String :=
  let commentText := jsTrim t
  if commentText != "" && decide (commentText.length > 10) &&
      decide (commentText.length < 500) && !comments.contains commentText then
    comments ++ [commentText]
  else comments

/-- The comment-selector loop, with its `if (comments.length >= 5) break`
applied between selector patterns. -/
def collectComments (q : String → List String) (comments : List String) :
    List String → List String
  | [] => comments
  | sel :: rest =>
    let comments2 := (q sel).foldl addComment comments
    if comments2.length ≥ 5 then comments2
    else collectComments q comments2 rest

/-- The render-completion gate (`page.waitForFunction`): extraction proceeds
only when the rendered body text has more than 100 characters and shows no
hydration artifacts; otherwise the wait times out, the exception is caught and
`getPostContent` returns null. -/
def renderGateOk (d : PostDoc) : Bool :=
  decide (d.bodyText.length > 100) &&
  !containsStr d.bodyText "$undefined" &&
  !containsStr d.bodyText "__className_"

/-- `getPostContent`: null when the render gate fails or when no valid body
survives the cascade and the suspicious-content gate (the source checks
`!body` twice, once before and once after comment collection); otherwise the
assembled record, with the comments capped at 5 by `comments.slice(0, 5)`. -/
def getPostContent (d : PostDoc) (postUrl : String) : Option PostDetail :=
  if renderGateOk d then
    if finalBody d = "" then none
    else
      if finalBody d = "" then none
      else
        some { title := extractTitle d,
               content := finalBody d,
               author := extractAuthor d.query,
               timestamp := extractTimestamp d.query,
               comments := (collectComments d.query [] commentSelectors).take 5,
               url := postUrl }
  else none

/-- `getPostContent` including document acquisition: if navigation or the
rendered-content evaluation fails, the catch handler returns null. -/
def getPostContentResult : Option PostDoc → String → Option PostDetail
  | none, _ => none
  | some d, postUrl => getPostContent d postUrl

/-! ## Concrete fixtures -/

def w1Comment1 : String := "This is a wonderful topic thanks for sharing"

def w1Comment2 : String := "Great points here and I agree with most of them"

/-- A small post page on which extraction succeeds: a title line, one
conversational body line, and two comments under `.comment, .reply`. -/
def w1Doc : PostDoc :=
  { bodyText := "Weekly Checkin Post Roundup\nLets discuss recent trends in technology together, what has everyone been working on lately regarding new tools.",
    title := "",
    query := fun s => if s = ".comment, .reply" then [w1Comment1, w1Comment2] else [] }

def w1Url : String := "https://example.com/forum/general/post/1"

/-- The record `getPostContent` extracts from `w1Doc`. -/
def w1Expected : PostDetail :=
  { title := "Weekly Checkin Post Roundup",
    content := "Lets discuss recent trends in technology together, what has everyone been working on lately regarding new tools.",
    author := "", timestamp := "",
    comments := [w1Comment1, w1Comment2], url := w1Url }

/-- `w1Doc` with a duplicated comment in the comment-selector results. -/
def w3Doc : PostDoc :=
  { bodyText := w1Doc.bodyText,
    title := "",
    query := fun s =>
      if s = ".comment, .reply" then [w1Comment1, w1Comment2, w1Comment1] else [] }

/-- The record `getPostContent` extracts from `w3Doc`: the duplicate comment is
collected once. -/
def w3Expected : PostDetail :=
  { title := "Weekly Checkin Post Roundup",
    content := "Lets discuss recent trends in technology together, what has everyone been working on lately regarding new tools.",
    author := "", timestamp := "",
    comments := [w1Comment1, w1Comment2], url := w1Url }

def chromeBodyAll : String :=
  "NeoForum Home Explore Forums Dashboard Login Register Search Back to Forum © 2024 NeoForum. Privacy Policy. Terms of Service."

/-- A page containing only forum-chrome text: nav links and footer boilerplate,
no post content. -/
def chromeDoc : PostDoc :=
  { bodyText := "NeoForum\nHome\nExplore Forums\nDashboard\nLogin\nRegister\nSearch\nBack to Forum\n© 2024 NeoForum. Privacy Policy. Terms of Service.",
    title := "NeoForum",
    query := fun s => if s = "body" then [chromeBodyAll] else [] }

/-- A page whose rendered text passes every shape check of the rendered-text
body strategy but assembles (across a line break) to a body containing the
boilerplate phrase "community based around". -/
def w4Doc : PostDoc :=
  { bodyText := "This little group is a community based\naround topics that we all love discussing together every single day with enthusiasm.",
    title := "",
    query := fun _ => [] }

/-- A body candidate satisfying all four shape checks of `isValidPostContent`. -/
def c6Text : String :=
  "alpha bravo charlie delta echo foxtrot golf hotel india juliet kilo lima mike november oscar papa quebec romeo sierra tango uniform victor whiskey xray"

/-- A listing page with one card holding one post anchor. -/
def w2Doc : ListDoc :=
  { cards := [{ anchors := [{ href := some "/forum/tech/post/42", h3texts := ["My First Post"] }],
                find := fun _ => [] }],
    anchors := [] }

/-- Two distinct but field-identical document handles. -/
def w9DocA : PostDoc :=
  { bodyText := w1Doc.bodyText, title := "", query := fun _ => [] }

def w9DocB : PostDoc :=
  { bodyText := w1Doc.bodyText, title := "", query := fun _ => [] }

/-- A category page on which every category selector matches nothing. -/
def w10Doc : CatDoc := { query := fun _ => [] }

/-! ## Helper lemmas -/

/-- Characterization of a successful `getPostContent` call: the body is the
gated cascade output and is non-empty, and the record fields are the
extractors' outputs. -/
theorem getPostContent_some_eq {d : PostDoc} {url : String} {pd : PostDetail}
    (h : getPostContent d url = some pd) :
    finalBody d ≠ "" ∧
    pd = { title := extractTitle d, content := finalBody d,
           author := extractAuthor d.query, timestamp := extractTimestamp d.query,
           comments := (collectComments d.query [] commentSelectors).take 5,
           url := url } := by
  unfold getPostContent at h
  split at h
  · split at h
    · exact Option.noConfusion h
    · rename_i hne
      refine ⟨hne, ?_⟩
      injection h with h
      exact h.symm
  · exact Option.noConfusion h

theorem cardPost_fields {c : Card} {p : PostSummary} (h : cardPost c = some p) :
    p.title ≠ "" ∧ p.link ≠ "" := by
  unfold cardPost at h
  split at h
  · exact Option.noConfusion h
  · simp only [Option.ite_none_right_eq_some, Option.some.injEq] at h
    obtain ⟨hcond, heq⟩ := h
    subst heq
    simp only [Bool.and_eq_true, bne_iff_ne, ne_eq] at hcond
    exact ⟨hcond.1, hcond.2⟩

theorem globalPost_fields {a : GAnchor} {p : PostSummary} (h : globalPost a = some p) :
    p.title ≠ "" ∧ p.link ≠ "" := by
  unfold globalPost at h
  split at h
  · exact Option.noConfusion h
  · split at h
    · simp only [Option.ite_none_right_eq_some, Option.some.injEq] at h
      obtain ⟨hcond, heq⟩ := h
      subst heq
      simp only [Bool.and_eq_true, bne_iff_ne, ne_eq] at hcond
      exact ⟨hcond.1, hcond.2⟩
    · exact Option.noConfusion h

theorem scrapeRecentPostsAll_fields {d : ListDoc} {p : PostSummary}
    (h : p ∈ scrapeRecentPostsAll d) : p.title ≠ "" ∧ p.link ≠ "" := by
  simp only [scrapeRecentPostsAll] at h
  split at h
  · obtain ⟨a, -, ha⟩ := List.mem_filterMap.1 h
    exact globalPost_fields ha
  · obtain ⟨c, -, hc⟩ := List.mem_filterMap.1 h
    exact cardPost_fields hc

/-- The length window a collected comment satisfies (strict bounds, from the
source condition `commentText.length > 10 && commentText.length < 500`). -/
def commentLenOk (c : String) : Bool :=
  decide (10 < c.length) && decide (c.length < 500)

theorem addComment_inv {acc : List String} (t : String)
    (h1 : acc.Nodup) (h2 : ∀ c ∈ acc, commentLenOk c = true) :
    (addComment acc t).Nodup ∧ ∀ c ∈ addComment acc t, commentLenOk c = true := by
  unfold addComment
  simp only
  split
  · rename_i hcond
    simp only [Bool.and_eq_true, bne_iff_ne, ne_eq, Bool.not_eq_true',
      decide_eq_true_eq] at hcond
    have hnotmem : jsTrim t ∉ acc := by simpa using hcond.2
    constructor
    · simp [List.nodup_append, h1, hnotmem]
    · intro c hc
      rcases List.mem_append.1 hc with hmem | hmem
      · exact h2 c hmem
      · simp only [List.mem_singleton] at hmem
        subst hmem
        simp only [commentLenOk, Bool.and_eq_true, decide_eq_true_eq]
        exact ⟨hcond.1.1.2, hcond.1.2⟩
  · exact ⟨h1, h2⟩

theorem foldl_addComment_inv (ts : List String) {acc : List String}
    (h1 : acc.Nodup) (h2 : ∀ c ∈ acc, commentLenOk c = true) :
    (ts.foldl addComment acc).Nodup ∧
      ∀ c ∈ ts.foldl addComment acc, commentLenOk c = true := by
  induction ts generalizing acc with
  | nil => exact ⟨h1, h2⟩
  | cons t ts ih =>
    obtain ⟨g1, g2⟩ := addComment_inv t h1 h2
    exact ih g1 g2

theorem collectComments_inv (sels : List String) (q : String → List String)
    {acc : List String} (h1 : acc.Nodup) (h2 : ∀ c ∈ acc, commentLenOk c = true) :
    (collectComments q acc sels).Nodup ∧
      ∀ c ∈ collectComments q acc sels, commentLenOk c = true := by
  induction sels generalizing acc with
  | nil => exact ⟨h1, h2⟩
  | cons sel rest ih =>
    unfold collectComments
    obtain ⟨g1, g2⟩ := foldl_addComment_inv (q sel) h1 h2
    dsimp only
    split
    · exact ⟨g1, g2⟩
    · exact ih g1 g2

/-! ## The claims -/

set_option maxHeartbeats 4000000
set_option maxRecDepth 100000

/-- C1: for every input document and URL, `getPostContent` never returns a
`PostDetail` whose `content` field is the empty string — when every
body-extraction strategy fails it returns `none` instead — and on the fixture
page containing only forum-chrome text (nav links and footer boilerplate) it
returns `none`. -/
theorem claim_C1_no_empty_content :
    (∀ (d : PostDoc) (url : String) (pd : PostDetail),
       getPostContent d url = some pd → pd.content ≠ "") ∧
    getPostContent chromeDoc w1Url = none := by
  constructor
  · intro d url pd h
    obtain ⟨hne, hpd⟩ := getPostContent_some_eq h
    rw [hpd]
    exact hne
  · rfl

/-- C1 witness: on the fixture `w1Doc` the extractor returns a record, and its
content is non-empty. -/
theorem claim_C1_no_empty_content_w : w1Expected.content ≠ "" :=
  claim_C1_no_empty_content.1 w1Doc w1Url w1Expected rfl

/-- C2: for every input document and every limit, the post-summary sequence
returned by `scrapeRecentPosts` has length at most `limit` and consists of the
first `limit` entries, in document order, of the untruncated scrape. -/
theorem claim_C2_limit_truncation :
    ∀ (d : ListDoc) (limit : Nat),
      (scrapeRecentPosts d limit).length ≤ limit ∧
      scrapeRecentPosts d limit = (scrapeRecentPostsAll d).take limit := by
  intro d limit
  simp only [scrapeRecentPosts]
  split
  · constructor
    · simp [List.length_take]
    · rfl
  · rename_i hle
    constructor
    · omega
    · exact (List.take_of_length_le (by omega)).symm

/-- C7: every post summary returned by `scrapeRecentPosts` has a non-empty
title and a non-empty link, under both the card strategy and the global
anchor scan. -/
theorem claim_C7_nonempty_title_link :
    ∀ (d : ListDoc) (limit : Nat) (p : PostSummary),
      p ∈ scrapeRecentPosts d limit → p.title ≠ "" ∧ p.link ≠ "" := by
  intro d limit p hp
  have hall : p ∈ scrapeRecentPostsAll d := by
    have h2 := (claim_C2_limit_truncation d limit).2
    rw [h2] at hp
    exact List.take_subset _ _ hp
  exact scrapeRecentPostsAll_fields hall

/-- C7 witness: the summary scraped from the fixture card has non-empty title
and link. -/
theorem claim_C7_nonempty_title_link_w :
    (PostSummary.mk "My First Post" "/forum/tech/post/42" "" "").title ≠ "" ∧
    (PostSummary.mk "My First Post" "/forum/tech/post/42" "" "").link ≠ "" :=
  claim_C7_nonempty_title_link w2Doc 10 _ (List.Mem.head _)

/-- C9: the detail extractor is deterministic — its output depends only on the
document handle's rendered body text, page title and query view, so two calls
on the same immutable handle return identical output. -/
theorem claim_C9_deterministic :
    ∀ (d1 d2 : PostDoc) (url : String),
      d1.bodyText = d2.bodyText → d1.title = d2.title → d1.query = d2.query →
      getPostContent d1 url = getPostContent d2 url := by
  intro d1 d2 url h1 h2 h3
  cases d1
  cases d2
  simp only at h1 h2 h3
  subst h1; subst h2; subst h3
  rfl

/-- C9 witness: two field-identical handles yield the same output. -/
theorem claim_C9_deterministic_w :
    getPostContent w9DocA w1Url = getPostContent w9DocB w1Url :=
  claim_C9_deterministic w9DocA w9DocB w1Url rfl rfl rfl

/-- C10: `scrapeCategories` never returns an empty list: when every category
selector yields nothing it returns the fixed six default category names, and
the acquisition-failure path returns the same defaults. -/
theorem claim_C10_default_categories :
    (∀ od : Option CatDoc, scrapeCategoriesResult od ≠ []) ∧
    (∀ d : CatDoc, categoriesFromSels d.query [] categorySelectors = [] →
       scrapeCategories d = defaultCategories) ∧
    defaultCategories.length = 6 := by
  refine ⟨?_, ?_, rfl⟩
  · intro od
    cases od with
    | none => simp [scrapeCategoriesResult, defaultCategories]
    | some d =>
      simp only [scrapeCategoriesResult]
      unfold scrapeCategories
      dsimp only
      split
      · simp [defaultCategories]
      · rename_i hne
        intro hc
        simp [hc] at hne
  · intro d h
    unfold scrapeCategories
    rw [h]
    rfl

/-- C10 witness: on a document where every selector misses, the defaults are
returned. -/
theorem claim_C10_default_categories_w :
    scrapeCategories w10Doc = defaultCategories :=
  claim_C10_default_categories.2.1 w10Doc (by decide)

/-- C3: the comments of every returned `PostDetail` are deduplicated (no two
equal strings), capped at 5 across all comment-selector patterns combined, and
each collected comment's length lies strictly between 10 and 500 characters
(hence within the spec's 10–500 bounds). -/
theorem claim_C3_comments_bounded :
    ∀ (d : PostDoc) (url : String) (pd : PostDetail),
      getPostContent d url = some pd →
      pd.comments.Nodup ∧ pd.comments.length ≤ 5 ∧
      pd.comments.all commentLenOk = true := by
  intro d url pd h
  obtain ⟨-, hpd⟩ := getPostContent_some_eq h
  rw [hpd]
  obtain ⟨g1, g2⟩ :=
    collectComments_inv commentSelectors d.query List.nodup_nil (by simp)
  refine ⟨?_, ?_, ?_⟩
  · exact List.Nodup.sublist (List.take_sublist 5 _) g1
  · dsimp only
    rw [List.length_take]
    omega
  · exact List.all_eq_true.2 fun c hc => g2 c (List.take_subset _ _ hc)

/-- C3 witness: on the fixture whose comment selector returns a duplicate, the
returned comments are the two distinct strings, within bounds. -/
theorem claim_C3_comments_bounded_w :
    w3Expected.comments.Nodup ∧ w3Expected.comments.length ≤ 5 ∧
    w3Expected.comments.all commentLenOk = true :=
  claim_C3_comments_bounded w3Doc w1Url w3Expected rfl

/-- C4: a candidate body containing the boilerplate phrase
"community based around" (or any other suspicious pattern) is rejected by the
whole-candidate denylist pass, so `getPostContent` returns `none` rather than
a record built from that body, regardless of the shape checks the body
passed earlier in the cascade. -/
theorem claim_C4_denylist_rejects :
    (∀ body : String, containsStr (jsToLower body) "community based around" = true →
       hasSuspiciousContent body = true) ∧
    (∀ (d : PostDoc) (url : String),
       hasSuspiciousContent (bodyCascade d) = true → getPostContent d url = none) := by
  constructor
  · intro body h
    unfold hasSuspiciousContent suspiciousPatterns
    simp only [List.any_cons, List.any_nil, Bool.or_eq_true]
    refine Or.inr (Or.inl ?_)
    have heq : jsToLower "community based around" = "community based around" := rfl
    rw [heq]
    exact h
  · intro d url h
    have hfb : finalBody d = "" := by
      unfold finalBody
      dsimp only
      by_cases hb : bodyCascade d = ""
      · rw [hb]; simp
      · simp [hb, h]
    unfold getPostContent
    rw [hfb]
    simp

/-- C4 witness: on the fixture whose rendered-text lines assemble (across a
line break) to a body containing "community based around", the body is flagged
suspicious and the extractor returns `none`. -/
theorem claim_C4_denylist_rejects_w :
    hasSuspiciousContent (bodyCascade w4Doc) = true ∧
    getPostContent w4Doc w1Url = none :=
  ⟨claim_C4_denylist_rejects.1 (bodyCascade w4Doc) rfl,
   claim_C4_denylist_rejects.2 w4Doc w1Url
     (claim_C4_denylist_rejects.1 (bodyCascade w4Doc) rfl)⟩

/-- Modelled from the spec, amended (C5): the acceptance predicate the
specification describes for the textual title strategy, with both windows
stated exclusively: word count strictly between 2 and 15, character length
strictly between 10 and 100, no denylist match, no date-pattern match. -/
def titleLineSpecAccept (line : String) : Bool :=
  decide ((jsSplit " " line).length > 2) && decide ((jsSplit " " line).length < 15) &&
  decide (line.length > 10) && decide (line.length < 100) &&
  titleLineNoDenylist line && !matchAugustDate line

/-- C5 counterexample: the line "Interesting Observation" has exactly 2 words,
is under 100 characters, matches no denylist entry and no date pattern — the
claim as stated says it is accepted — yet the title strategy rejects it,
because the source requires `words.length > 2` (strict). -/
theorem claim_C5_boundary_counterexample :
    ((jsSplit " " "Interesting Observation").length = 2 ∧
     "Interesting Observation".length < 100 ∧
     titleLineNoDenylist "Interesting Observation" = true ∧
     matchAugustDate "Interesting Observation" = false) ∧
    titleLineOk "Interesting Observation" = false :=
  ⟨⟨rfl, by decide, rfl, rfl⟩, rfl⟩

/-- C5 (amended): a line is accepted as a title candidate exactly when its
word count is strictly between 2 and 15, its character length strictly between
10 and 100, and it matches neither the non-title vocabulary denylist nor the
date pattern; in particular lines of exactly 2 or exactly 15 words are always
rejected. -/
theorem claim_C5_title_window :
    (∀ line : String, titleLineOk line = titleLineSpecAccept line) ∧
    (∀ line : String, (jsSplit " " line).length = 2 → titleLineOk line = false) ∧
    (∀ line : String, (jsSplit " " line).length = 15 → titleLineOk line = false) := by
  refine ⟨?_, ?_, ?_⟩
  · intro line
    unfold titleLineOk titleLineSpecAccept
    generalize decide (line.length > 10) = a
    generalize decide (line.length < 100) = b
    generalize titleLineNoDenylist line = c
    generalize (!matchAugustDate line) = d
    generalize decide ((jsSplit " " line).length > 2) = e
    generalize decide ((jsSplit " " line).length < 15) = f
    revert a b c d e f
    decide
  · intro line h
    unfold titleLineOk
    rw [h]
    simp
  · intro line h
    unfold titleLineOk
    rw [h]
    simp

/-- C5 witness: the 2-word boundary line is rejected. -/
theorem claim_C5_title_window_w :
    titleLineOk "Interesting Observation" = false :=
  claim_C5_title_window.2.1 "Interesting Observation" rfl

/-- C6: the HTML-selector body validator accepts a candidate only if it has
more than 100 characters, more than 20 space-separated words, fewer than 50
newline-separated segments, and URL-ish tokens (occurrences of "http") below
10% of the word count; and a candidate failing validation makes the selector
chain continue with the remaining selectors. -/
theorem claim_C6_validator_shape :
    (∀ textContent : String, isValidPostContent textContent = true →
       100 < textContent.length ∧ 20 < (jsSplit " " textContent).length ∧
       (jsSplit "\n" textContent).length < 50 ∧
       10 * countSub "http".data textContent.data < (jsSplit " " textContent).length) ∧
    (∀ (q : String → List String) (sel : String) (rest : List String),
       isValidPostContent (jsTrim (String.join (q sel))) = false →
       htmlBodyFromSels q (sel :: rest) = htmlBodyFromSels q rest) := by
  constructor
  · intro t h
    unfold isValidPostContent at h
    simp only [Bool.and_eq_true, decide_eq_true_eq] at h
    tauto
  · intro q sel rest h
    have hEq : htmlBodyFromSels q (sel :: rest) =
        match q sel with
        | [] => htmlBodyFromSels q rest
        | t :: ts =>
          let textContent := jsTrim (String.join (t :: ts))
          if isValidPostContent textContent then textContent
          else htmlBodyFromSels q rest := rfl
    rw [hEq]
    cases hq : q sel with
    | nil => rfl
    | cons t ts =>
      rw [hq] at h
      dsimp only
      simp [h]

/-- C6 witness: a 24-word, 151-character candidate passes the validator and
hence satisfies the four shape bounds; and a selector yielding nothing makes
the chain continue. -/
theorem claim_C6_validator_shape_w :
    (100 < c6Text.length ∧ 20 < (jsSplit " " c6Text).length ∧
     (jsSplit "\n" c6Text).length < 50 ∧
     10 * countSub "http".data c6Text.data < (jsSplit " " c6Text).length) ∧
    htmlBodyFromSels (fun _ => []) [".post-content"] = htmlBodyFromSels (fun _ => []) [] :=
  ⟨claim_C6_validator_shape.1 c6Text rfl,
   claim_C6_validator_shape.2 (fun _ => []) ".post-content" [] rfl⟩

/-- C8: failure to obtain the document handle is the one condition surfaced to
the caller as the error result (`none` for `getPostContent`, `[]` for
`scrapeRecentPosts`); given a document that passes the render gate, the only
way `getPostContent` yields `none` is an empty gated body — missing title,
author, timestamp or comments degrade to empty fields and never prevent a
result (the embedding is total, so no exception can propagate). -/
theorem claim_C8_failure_propagation :
    (∀ url : String, getPostContentResult none url = none) ∧
    (∀ (d : PostDoc) (url : String), renderGateOk d = true →
       (getPostContent d url = none ↔ finalBody d = "")) ∧
    (∀ limit : Nat, scrapeRecentPostsResult none limit = []) := by
  refine ⟨fun url => rfl, ?_, fun limit => rfl⟩
  intro d url hg
  by_cases hb : finalBody d = "" <;> simp [getPostContent, hg, hb]

/-- C8 witness: the fixture passes the render gate, and the equivalence holds
there. -/
theorem claim_C8_failure_propagation_w :
    getPostContent w1Doc w1Url = none ↔ finalBody w1Doc = "" :=
  claim_C8_failure_propagation.2.1 w1Doc w1Url rfl

end NeoBot
